import Mathlib

/-!
Verification of the scoring core of the rpl-predictions-bot repository:
the pure classifier `calculate_points` (src/app/scoring.py) and the
recomputation coordinator `recalc_points_for_match_in_session`
(src/app/handlers_admin.py), modelled over an explicit database state.
-/

namespace RplBot

/-- Result of classifying one prediction, mirroring `ScoreResult` in
src/app/scoring.py: points awarded and a category label
("exact" | "diff" | "outcome" | "none"). -/
structure ScoreResult where
  points : Int
  category : String
  deriving DecidableEq, Repr

/-- Sign of an integer, mirroring the helper in src/app/scoring.py:
1 for positive, -1 for negative, 0 for zero. -/
def signOf (x : Int) : Int :=
  if x > 0 then 1
  else if x < 0 then -1
  else 0

/-- The classifier from src/app/scoring.py: exact score gives 4 points
("exact"), matching goal difference gives 2 ("diff"), matching outcome
sign gives 1 ("outcome"), otherwise 0 ("none"). -/
def calculate_points (pred_home pred_away real_home real_away : Int) : ScoreResult :=
  if pred_home = real_home ∧ pred_away = real_away then
    ⟨4, "exact"⟩
  else
    let pred_diff := pred_home - pred_away
    let real_diff := real_home - real_away
    if pred_diff = real_diff ∧ signOf pred_diff = signOf real_diff then
      ⟨2, "diff"⟩
    else if signOf pred_diff = signOf real_diff then
      ⟨1, "outcome"⟩
    else
      ⟨0, "none"⟩

/-- Match row (src/app/models.py): identity and the optional final
result; `id` is the primary key. Fields not read by the scoring core
(teams, kickoff, round, source) are omitted. -/
structure Match where
  id : Int
  home_score : Option Int
  away_score : Option Int
  deriving DecidableEq, Repr

/-- Prediction row (src/app/models.py): the (match, user) key and the
guessed score. The schema has a unique constraint on
(match_id, tg_user_id). -/
structure Prediction where
  match_id : Int
  tg_user_id : Int
  pred_home : Int
  pred_away : Int
  deriving DecidableEq, Repr

/-- Point row (src/app/models.py): the derived record keyed by
(match_id, tg_user_id), with a unique constraint on that pair. -/
structure Point where
  match_id : Int
  tg_user_id : Int
  points : Int
  category : String
  deriving DecidableEq, Repr

/-- Database state visible to the recomputation coordinator: the three
tables it reads or writes. -/
structure DBState where
  matchRows : List Match
  preds : List Prediction
  points : List Point
  deriving DecidableEq, Repr

/-- SQLAlchemy's scalar_one_or_none on a result set: none on no rows,
the row when unique, and an error (MultipleResultsFound) otherwise. -/
def scalar_one_or_none {α : Type} : List α → Except String (Option α)
  | [] => Except.ok none
  | [x] => Except.ok (some x)
  | _ => Except.error "MultipleResultsFound"

/-- Test that a Point row has the natural key (mid, uid); this is the
WHERE clause of the per-user Point lookup in the recomputation loop. -/
def keyTest (mid uid : Int) (q : Point) : Bool :=
  q.match_id == mid && q.tg_user_id == uid

/-- Result set of `select(Point).where(Point.match_id == mid,
Point.tg_user_id == uid)` over a points table. -/
def pointsFor (pts : List Point) (mid uid : Int) : List Point :=
  pts.filter (keyTest mid uid)

/-- Overwrite a Point row with a freshly computed result, keeping its
key fields: `point.points = pts; point.category = cat` in the source. -/
def overwrite (c : ScoreResult) (q : Point) : Point :=
  { q with points := c.points, category := c.category }

/-- The single correct Point row for prediction `p` on a match with
final score (rh, ra): the classifier's output keyed by
(mid, p.tg_user_id). -/
def correctPoint (mid rh ra : Int) (p : Prediction) : Point :=
  ⟨mid, p.tg_user_id,
    (calculate_points p.pred_home p.pred_away rh ra).points,
    (calculate_points p.pred_home p.pred_away rh ra).category⟩

/-- One iteration of the recomputation loop
(src/app/handlers_admin.py lines 80-101): classify the prediction, look
up the per-(match, user) Point row, create it when absent, overwrite it
when its stored value or category differs, and count the write. -/
def applyPred (mid real_home real_away : Int) (pts : List Point) (upd : Nat)
    (p : Prediction) : Except String (List Point × Nat) :=
  match scalar_one_or_none (pointsFor pts mid p.tg_user_id) with
  | Except.error e => Except.error e
  | Except.ok none =>
      Except.ok (pts ++ [correctPoint mid real_home real_away p], upd + 1)
  | Except.ok (some point) =>
      if point.points ≠ (calculate_points p.pred_home p.pred_away real_home real_away).points ∨
          point.category ≠ (calculate_points p.pred_home p.pred_away real_home real_away).category then
        Except.ok
          (pts.map (fun q =>
            if keyTest mid p.tg_user_id q then
              overwrite (calculate_points p.pred_home p.pred_away real_home real_away) q
            else q),
           upd + 1)
      else
        Except.ok (pts, upd)

/-- The for-loop of recalc_points_for_match_in_session over the match's
predictions, threading the evolving points table and the update count
(session.add makes a new row visible to later lookups via autoflush). -/
def recalcLoop (mid real_home real_away : Int) :
    List Prediction → List Point → Nat → Except String (List Point × Nat)
  | [], pts, upd => Except.ok (pts, upd)
  | p :: rest, pts, upd =>
    match applyPred mid real_home real_away pts upd p with
    | Except.error e => Except.error e
    | Except.ok (pts', upd') => recalcLoop mid real_home real_away rest pts' upd'

/-- recalc_points_for_match_in_session (src/app/handlers_admin.py lines
65-104): look up the match by id (returning 0 when absent), return 0
when either score is unset, otherwise reclassify every prediction for
the match and upsert the Point rows, returning the number of rows
created or changed. -/
def recalc_points_for_match_in_session (st : DBState) (match_id : Int) :
    Except String (Nat × DBState) :=
  match scalar_one_or_none (st.matchRows.filter (fun m => m.id == match_id)) with
  | Except.error e => Except.error e
  | Except.ok none => Except.ok (0, st)
  | Except.ok (some m) =>
    match m.home_score, m.away_score with
    | some rh, some ra =>
      match recalcLoop match_id rh ra
          (st.preds.filter (fun p => p.match_id == match_id)) st.points 0 with
      | Except.error e => Except.error e
      | Except.ok (pts, upd) => Except.ok (upd, { st with points := pts })
    | _, _ => Except.ok (0, st)

/-- Example state: one finished match 2:1 with a single exact
prediction by user 7 and no Point rows yet. -/
def exSt : DBState := ⟨[⟨1, some 2, some 1⟩], [⟨1, 7, 2, 1⟩], []⟩

/-- The state produced by recomputing exSt: one "exact" Point row. -/
def exStAfter : DBState :=
  ⟨[⟨1, some 2, some 1⟩], [⟨1, 7, 2, 1⟩], [⟨1, 7, 4, "exact"⟩]⟩

/-- Example state whose single Point row already stores the correct
value for its prediction (match finished 1:0, prediction 1:0, stored
row 4/"exact"). -/
def exStale : DBState :=
  ⟨[⟨1, some 1, some 0⟩], [⟨1, 7, 1, 0⟩], [⟨1, 7, 4, "exact"⟩]⟩

/-- The empty database. -/
def emptySt : DBState := ⟨[], [], []⟩

/-- Example state with a match whose away score is not yet set. -/
def exStUnfin : DBState := ⟨[⟨1, some 2, none⟩], [⟨1, 7, 2, 1⟩], []⟩

/-- Example state mixing the three loop outcomes: match 1 finished 2:1;
user 7 predicted 2:1 with an already-correct row, user 8 predicted 0:0
with a stale (4, "exact") row, user 9 predicted 1:0 with no row. -/
def exMix : DBState :=
  ⟨[⟨1, some 2, some 1⟩], [⟨1, 7, 2, 1⟩, ⟨1, 8, 0, 0⟩, ⟨1, 9, 1, 0⟩],
    [⟨1, 7, 4, "exact"⟩, ⟨1, 8, 4, "exact"⟩]⟩

/-- The state produced by recomputing exMix: user 7's row untouched,
user 8's row overwritten to (0, "none"), user 9's row created as
(2, "diff"). -/
def exMixAfter : DBState :=
  ⟨[⟨1, some 2, some 1⟩], [⟨1, 7, 2, 1⟩, ⟨1, 8, 0, 0⟩, ⟨1, 9, 1, 0⟩],
    [⟨1, 7, 4, "exact"⟩, ⟨1, 8, 0, "none"⟩, ⟨1, 9, 2, "diff"⟩]⟩

/-- C3: for every integer pair, predicting the actual score exactly is
classified as 4 points in category "exact"; the exact tier is checked
before the difference tier, so 0-0 against 0-0 is "exact". -/
theorem calculate_points_exact_priority (h a : Int) :
    calculate_points h a h a = ⟨4, "exact"⟩ := by
  simp [calculate_points]

/-- C4: a prediction that is not component-wise exact but has the same
goal differential as the actual result is classified as 2 points in
category "diff". -/
theorem calculate_points_diff_tier (ph pa ah aa : Int)
    (hne : ¬(ph = ah ∧ pa = aa)) (hdiff : ph - pa = ah - aa) :
    calculate_points ph pa ah aa = ⟨2, "diff"⟩ := by
  simp only [calculate_points, if_neg hne]
  rw [if_pos ⟨hdiff, by rw [hdiff]⟩]

/-- Witness for C4 at the concrete draw-vs-draw input from the spec:
calculate_points 1 1 3 3 = (2, "diff"). -/
theorem calculate_points_diff_tier_witness :
    calculate_points 1 1 3 3 = ⟨2, "diff"⟩ :=
  calculate_points_diff_tier 1 1 3 3 (by decide) (by decide)

/-- C5: a prediction that is neither exact nor differential-matching is
classified as 1 point in category "outcome" when the sign of its
differential matches the actual one, and 0 points in category "none"
otherwise. -/
theorem calculate_points_outcome_or_miss (ph pa ah aa : Int)
    (hne : ¬(ph = ah ∧ pa = aa)) (hdiff : ph - pa ≠ ah - aa) :
    calculate_points ph pa ah aa =
      if signOf (ph - pa) = signOf (ah - aa) then ⟨1, "outcome"⟩
      else ⟨0, "none"⟩ := by
  simp only [calculate_points, if_neg hne]
  rw [if_neg (fun hand => hdiff hand.1)]

/-- Witness for C5 at two concrete inputs: calculate_points 3 0 1 0 is
(1, "outcome") and calculate_points 0 1 1 0 is (0, "none"). -/
theorem calculate_points_outcome_or_miss_witness :
    calculate_points 3 0 1 0 = ⟨1, "outcome"⟩ ∧
      calculate_points 0 1 1 0 = ⟨0, "none"⟩ :=
  ⟨by rw [calculate_points_outcome_or_miss 3 0 1 0 (by decide) (by decide)]; decide,
   by rw [calculate_points_outcome_or_miss 0 1 1 0 (by decide) (by decide)]; decide⟩

/-- C6: the classifier is total — every four-integer input is mapped to
exactly one of the four fixed (points, category) pairs. -/
theorem calculate_points_total (ph pa ah aa : Int) :
    calculate_points ph pa ah aa = ⟨4, "exact"⟩ ∨
      calculate_points ph pa ah aa = ⟨2, "diff"⟩ ∨
      calculate_points ph pa ah aa = ⟨1, "outcome"⟩ ∨
      calculate_points ph pa ah aa = ⟨0, "none"⟩ := by
  unfold calculate_points
  dsimp only
  split
  · exact Or.inl rfl
  · split
    · exact Or.inr (Or.inl rfl)
    · split
      · exact Or.inr (Or.inr (Or.inl rfl))
      · exact Or.inr (Or.inr (Or.inr rfl))

theorem keyTest_iff (mid uid : Int) (q : Point) :
    keyTest mid uid q = true ↔ q.match_id = mid ∧ q.tg_user_id = uid := by
  simp [keyTest]

theorem keyTest_overwrite (mid uid : Int) (c : ScoreResult) (q : Point) :
    keyTest mid uid (overwrite c q) = keyTest mid uid q := by
  simp [keyTest, overwrite]

theorem keyTest_correctPoint (mid rh ra : Int) (p : Prediction) :
    keyTest mid p.tg_user_id (correctPoint mid rh ra p) = true := by
  simp [keyTest, correctPoint]

theorem map_id_of_mem {α : Type} (f : α → α) (l : List α)
    (h : ∀ x ∈ l, f x = x) : l.map f = l := by
  induction l with
  | nil => rfl
  | cons a t ih =>
    simp only [List.map_cons]
    rw [h a (List.mem_cons_self a t), ih (fun x hx => h x (List.mem_cons_of_mem a hx))]

theorem filter_map_comm {α : Type} (f : α → α) (P : α → Bool)
    (hPf : ∀ x, P (f x) = P x) (l : List α) :
    (l.map f).filter P = (l.filter P).map f := by
  induction l with
  | nil => rfl
  | cons a t ih =>
    simp only [List.map_cons, List.filter_cons, hPf a]
    cases hPa : P a <;> simp [ih]

theorem pointsFor_append (pts₁ pts₂ : List Point) (mid uid : Int) :
    pointsFor (pts₁ ++ pts₂) mid uid = pointsFor pts₁ mid uid ++ pointsFor pts₂ mid uid := by
  simp [pointsFor]

theorem mem_pointsFor_key (pts : List Point) (mid uid : Int) (q : Point)
    (h : q ∈ pointsFor pts mid uid) : q.match_id = mid ∧ q.tg_user_id = uid :=
  (keyTest_iff mid uid q).mp (List.of_mem_filter h)

theorem pointsFor_singleton_same (mid rh ra : Int) (p : Prediction) :
    pointsFor [correctPoint mid rh ra p] mid p.tg_user_id = [correctPoint mid rh ra p] := by
  simp [pointsFor, List.filter_cons, keyTest_correctPoint]

theorem pointsFor_singleton_other (mid rh ra : Int) (p : Prediction) (mid' uid' : Int)
    (hne : ¬(mid' = mid ∧ uid' = p.tg_user_id)) :
    pointsFor [correctPoint mid rh ra p] mid' uid' = [] := by
  have hfalse : keyTest mid' uid' (correctPoint mid rh ra p) = false := by
    rw [Bool.eq_false_iff]
    intro htrue
    have hk := (keyTest_iff mid' uid' (correctPoint mid rh ra p)).mp htrue
    exact hne ⟨hk.1.symm, hk.2.symm⟩
  simp [pointsFor, List.filter_cons, hfalse]

theorem applyPred_ok_key (mid rh ra : Int) (pts : List Point) (u : Nat) (p : Prediction)
    (pts' : List Point) (u' : Nat)
    (h : applyPred mid rh ra pts u p = Except.ok (pts', u')) :
    pointsFor pts' mid p.tg_user_id = [correctPoint mid rh ra p] := by
  unfold applyPred at h
  cases hq : pointsFor pts mid p.tg_user_id with
  | nil =>
    rw [hq] at h
    simp only [scalar_one_or_none, Except.ok.injEq, Prod.mk.injEq] at h
    obtain ⟨h1, h2⟩ := h
    rw [← h1, pointsFor_append, hq]
    exact pointsFor_singleton_same mid rh ra p
  | cons q t =>
    cases t with
    | nil =>
      rw [hq] at h
      simp only [scalar_one_or_none] at h
      have hkey := mem_pointsFor_key pts mid p.tg_user_id q
        (by rw [hq]; exact List.mem_singleton_self q)
      by_cases hcond :
          q.points ≠ (calculate_points p.pred_home p.pred_away rh ra).points ∨
            q.category ≠ (calculate_points p.pred_home p.pred_away rh ra).category
      · rw [if_pos hcond] at h
        simp only [Except.ok.injEq, Prod.mk.injEq] at h
        obtain ⟨h1, h2⟩ := h
        rw [← h1]
        unfold pointsFor
        rw [filter_map_comm _ _ (fun x => by
          by_cases hx : keyTest mid p.tg_user_id x
          · simp [hx, keyTest_overwrite]
          · simp [hx])]
        show (pointsFor pts mid p.tg_user_id).map _ = _
        rw [hq, List.map_singleton, if_pos ((keyTest_iff mid p.tg_user_id q).mpr hkey)]
        have heq : overwrite (calculate_points p.pred_home p.pred_away rh ra) q =
            correctPoint mid rh ra p := by
          cases q with
          | mk a b c d =>
            have hk1 : a = mid := hkey.1
            have hk2 : b = p.tg_user_id := hkey.2
            subst hk1
            subst hk2
            rfl
        rw [heq]
      · rw [if_neg hcond] at h
        simp only [Except.ok.injEq, Prod.mk.injEq] at h
        obtain ⟨h1, h2⟩ := h
        rw [← h1, hq]
        push_neg at hcond
        have heq : q = correctPoint mid rh ra p := by
          cases q with
          | mk a b c d =>
            have hk1 : a = mid := hkey.1
            have hk2 : b = p.tg_user_id := hkey.2
            have hk3 : c = (calculate_points p.pred_home p.pred_away rh ra).points := hcond.1
            have hk4 : d = (calculate_points p.pred_home p.pred_away rh ra).category := hcond.2
            subst hk1
            subst hk2
            rw [correctPoint, hk3, hk4]
        rw [heq]
    | cons q2 t2 =>
      rw [hq] at h
      simp only [scalar_one_or_none] at h
      exact Except.noConfusion h

theorem applyPred_ok_frame (mid rh ra : Int) (pts : List Point) (u : Nat) (p : Prediction)
    (pts' : List Point) (u' : Nat) (mid' uid' : Int)
    (hne : ¬(mid' = mid ∧ uid' = p.tg_user_id))
    (h : applyPred mid rh ra pts u p = Except.ok (pts', u')) :
    pointsFor pts' mid' uid' = pointsFor pts mid' uid' := by
  unfold applyPred at h
  cases hq : pointsFor pts mid p.tg_user_id with
  | nil =>
    rw [hq] at h
    simp only [scalar_one_or_none, Except.ok.injEq, Prod.mk.injEq] at h
    obtain ⟨h1, h2⟩ := h
    rw [← h1, pointsFor_append,
      pointsFor_singleton_other mid rh ra p mid' uid' hne, List.append_nil]
  | cons q t =>
    cases t with
    | nil =>
      rw [hq] at h
      simp only [scalar_one_or_none] at h
      by_cases hcond :
          q.points ≠ (calculate_points p.pred_home p.pred_away rh ra).points ∨
            q.category ≠ (calculate_points p.pred_home p.pred_away rh ra).category
      · rw [if_pos hcond] at h
        simp only [Except.ok.injEq, Prod.mk.injEq] at h
        obtain ⟨h1, h2⟩ := h
        rw [← h1]
        unfold pointsFor
        rw [filter_map_comm _ _ (fun x => by
          by_cases hx : keyTest mid p.tg_user_id x
          · simp [hx, keyTest_overwrite]
          · simp [hx])]
        apply map_id_of_mem
        intro x hx
        have hkx := mem_pointsFor_key pts mid' uid' x hx
        rw [if_neg]
        intro hkey
        have := (keyTest_iff mid p.tg_user_id x).mp hkey
        exact hne ⟨hkx.1 ▸ this.1.symm ▸ rfl, by rw [← hkx.2, this.2]⟩
      · rw [if_neg hcond] at h
        simp only [Except.ok.injEq, Prod.mk.injEq] at h
        rw [← h.1]
    | cons q2 t2 =>
      rw [hq] at h
      simp only [scalar_one_or_none] at h
      exact Except.noConfusion h

theorem applyPred_stable (mid rh ra : Int) (pts : List Point) (u : Nat) (p : Prediction)
    (q : Point) (hq : pointsFor pts mid p.tg_user_id = [q])
    (hp : q.points = (calculate_points p.pred_home p.pred_away rh ra).points)
    (hc : q.category = (calculate_points p.pred_home p.pred_away rh ra).category) :
    applyPred mid rh ra pts u p = Except.ok (pts, u) := by
  unfold applyPred
  rw [hq]
  simp only [scalar_one_or_none]
  rw [if_neg]
  simp [hp, hc]

theorem applyPred_count (mid rh ra : Int) (pts : List Point) (u : Nat) (p : Prediction)
    (pts₁ : List Point) (u₁ : Nat)
    (h : applyPred mid rh ra pts u p = Except.ok (pts₁, u₁)) :
    u₁ = if pointsFor pts mid p.tg_user_id = [correctPoint mid rh ra p] then u
      else u + 1 := by
  unfold applyPred at h
  cases hq : pointsFor pts mid p.tg_user_id with
  | nil =>
    rw [hq] at h
    simp only [scalar_one_or_none, Except.ok.injEq, Prod.mk.injEq] at h
    rw [if_neg (by simp)]
    exact h.2.symm
  | cons q t =>
    cases t with
    | nil =>
      rw [hq] at h
      simp only [scalar_one_or_none] at h
      have hkey := mem_pointsFor_key pts mid p.tg_user_id q
        (by rw [hq]; exact List.mem_singleton_self q)
      by_cases hcond :
          q.points ≠ (calculate_points p.pred_home p.pred_away rh ra).points ∨
            q.category ≠ (calculate_points p.pred_home p.pred_away rh ra).category
      · rw [if_pos hcond] at h
        simp only [Except.ok.injEq, Prod.mk.injEq] at h
        rw [if_neg]
        · exact h.2.symm
        · intro heq
          simp only [List.cons.injEq, and_true] at heq
          subst heq
          simp [correctPoint] at hcond
      · rw [if_neg hcond] at h
        simp only [Except.ok.injEq, Prod.mk.injEq] at h
        push_neg at hcond
        have hqcp : q = correctPoint mid rh ra p := by
          cases q with
          | mk a b c d =>
            have hk1 : a = mid := hkey.1
            have hk2 : b = p.tg_user_id := hkey.2
            have hk3 : c = (calculate_points p.pred_home p.pred_away rh ra).points := hcond.1
            have hk4 : d = (calculate_points p.pred_home p.pred_away rh ra).category := hcond.2
            subst hk1
            subst hk2
            rw [correctPoint, hk3, hk4]
        rw [if_pos (by rw [hqcp])]
        exact h.2.symm
    | cons q2 t2 =>
      rw [hq] at h
      simp only [scalar_one_or_none] at h
      exact Except.noConfusion h

theorem recalcLoop_frame (mid rh ra : Int) (ps : List Prediction) (pts pts' : List Point)
    (u u' : Nat) (mid' uid' : Int)
    (hne : ∀ p ∈ ps, ¬(mid' = mid ∧ uid' = p.tg_user_id))
    (h : recalcLoop mid rh ra ps pts u = Except.ok (pts', u')) :
    pointsFor pts' mid' uid' = pointsFor pts mid' uid' := by
  induction ps generalizing pts u with
  | nil =>
    simp only [recalcLoop, Except.ok.injEq, Prod.mk.injEq] at h
    rw [h.1]
  | cons p rest ih =>
    simp only [recalcLoop] at h
    cases hap : applyPred mid rh ra pts u p with
    | error e =>
      rw [hap] at h
      exact Except.noConfusion h
    | ok pr =>
      obtain ⟨pts₁, u₁⟩ := pr
      rw [hap] at h
      have hrest := ih pts₁ u₁ (fun p' hp' => hne p' (List.mem_cons_of_mem p hp')) h
      rw [hrest,
        applyPred_ok_frame mid rh ra pts u p pts₁ u₁ mid' uid'
          (hne p (List.mem_cons_self p rest)) hap]

theorem recalcLoop_key (mid rh ra : Int) (ps : List Prediction) (pts pts' : List Point)
    (u u' : Nat) (hnd : (ps.map Prediction.tg_user_id).Nodup)
    (h : recalcLoop mid rh ra ps pts u = Except.ok (pts', u')) :
    ∀ p ∈ ps, pointsFor pts' mid p.tg_user_id = [correctPoint mid rh ra p] := by
  induction ps generalizing pts u with
  | nil => intro p hp; cases hp
  | cons p0 rest ih =>
    simp only [recalcLoop] at h
    cases hap : applyPred mid rh ra pts u p0 with
    | error e =>
      rw [hap] at h
      exact Except.noConfusion h
    | ok pr =>
      obtain ⟨pts₁, u₁⟩ := pr
      rw [hap] at h
      simp only [List.map_cons, List.nodup_cons] at hnd
      intro p hp
      rcases List.mem_cons.mp hp with heq | hp'
      · subst heq
        have hkey := applyPred_ok_key mid rh ra pts u p pts₁ u₁ hap
        have hfr := recalcLoop_frame mid rh ra rest pts₁ pts' u₁ u' mid p.tg_user_id
          (fun p' hp' hand =>
            hnd.1 (by rw [hand.2]; exact List.mem_map_of_mem Prediction.tg_user_id hp')) h
        rw [hfr, hkey]
      · exact ih pts₁ u₁ hnd.2 h p hp'

theorem recalcLoop_stable (mid rh ra : Int) (ps : List Prediction) (pts : List Point)
    (u : Nat)
    (hall : ∀ p ∈ ps, pointsFor pts mid p.tg_user_id = [correctPoint mid rh ra p]) :
    recalcLoop mid rh ra ps pts u = Except.ok (pts, u) := by
  induction ps generalizing u with
  | nil => rfl
  | cons p rest ih =>
    simp only [recalcLoop]
    rw [applyPred_stable mid rh ra pts u p (correctPoint mid rh ra p)
      (hall p (List.mem_cons_self p rest)) rfl rfl]
    exact ih u (fun p' hp' => hall p' (List.mem_cons_of_mem p hp'))

theorem recalcLoop_all_new (mid rh ra : Int) (ps : List Prediction) (pts : List Point)
    (u : Nat) (hnd : (ps.map Prediction.tg_user_id).Nodup)
    (hempty : ∀ p ∈ ps, pointsFor pts mid p.tg_user_id = []) :
    ∃ pts', recalcLoop mid rh ra ps pts u = Except.ok (pts', u + ps.length) := by
  induction ps generalizing pts u with
  | nil => exact ⟨pts, rfl⟩
  | cons p rest ih =>
    simp only [recalcLoop]
    have hstep : applyPred mid rh ra pts u p =
        Except.ok (pts ++ [correctPoint mid rh ra p], u + 1) := by
      unfold applyPred
      rw [hempty p (List.mem_cons_self p rest)]
      rfl
    rw [hstep]
    simp only [List.map_cons, List.nodup_cons] at hnd
    have hempty' : ∀ p' ∈ rest,
        pointsFor (pts ++ [correctPoint mid rh ra p]) mid p'.tg_user_id = [] := by
      intro p' hp'
      rw [pointsFor_append, hempty p' (List.mem_cons_of_mem p hp'),
        pointsFor_singleton_other mid rh ra p mid p'.tg_user_id
          (fun hand =>
            hnd.1 (by rw [← hand.2]; exact List.mem_map_of_mem Prediction.tg_user_id hp'))]
      rfl
    obtain ⟨pts', hh⟩ := ih (pts ++ [correctPoint mid rh ra p]) (u + 1) hnd.2 hempty'
    refine ⟨pts', ?_⟩
    show recalcLoop mid rh ra rest (pts ++ [correctPoint mid rh ra p]) (u + 1) =
      Except.ok (pts', u + (p :: rest).length)
    rw [hh, List.length_cons]
    have harith : u + 1 + rest.length = u + (rest.length + 1) := by omega
    rw [harith]

theorem recalcLoop_count (mid rh ra : Int) (ps : List Prediction) (pts pts' : List Point)
    (u u' : Nat) (hnd : (ps.map Prediction.tg_user_id).Nodup)
    (h : recalcLoop mid rh ra ps pts u = Except.ok (pts', u')) :
    u' = u + ps.countP
      (fun p => decide (pointsFor pts mid p.tg_user_id ≠ [correctPoint mid rh ra p])) := by
  induction ps generalizing pts u with
  | nil =>
    simp only [recalcLoop, Except.ok.injEq, Prod.mk.injEq] at h
    rw [← h.2, List.countP_nil]
    rfl
  | cons p rest ih =>
    simp only [recalcLoop] at h
    cases hap : applyPred mid rh ra pts u p with
    | error e =>
      rw [hap] at h
      exact Except.noConfusion h
    | ok pr =>
      obtain ⟨pts₁, u₁⟩ := pr
      rw [hap] at h
      simp only [List.map_cons, List.nodup_cons] at hnd
      have hcount := ih pts₁ u₁ hnd.2 h
      have hcongr : rest.countP
            (fun q => decide (pointsFor pts₁ mid q.tg_user_id ≠ [correctPoint mid rh ra q])) =
          rest.countP
            (fun q => decide (pointsFor pts mid q.tg_user_id ≠ [correctPoint mid rh ra q])) := by
        apply List.countP_congr
        intro p' hp'
        rw [applyPred_ok_frame mid rh ra pts u p pts₁ u₁ mid p'.tg_user_id
          (fun hand =>
            hnd.1 (by rw [← hand.2]; exact List.mem_map_of_mem Prediction.tg_user_id hp'))
          hap]
      have hstep := applyPred_count mid rh ra pts u p pts₁ u₁ hap
      rw [hcount, hcongr, List.countP_cons]
      by_cases hcase : pointsFor pts mid p.tg_user_id = [correctPoint mid rh ra p]
      · rw [if_pos hcase] at hstep
        subst hstep
        have hfalse :
            ¬(decide (pointsFor pts mid p.tg_user_id ≠ [correctPoint mid rh ra p]) = true) := by
          simp [hcase]
        rw [if_neg hfalse]
        omega
      · rw [if_neg hcase] at hstep
        subst hstep
        have htrue :
            decide (pointsFor pts mid p.tg_user_id ≠ [correctPoint mid rh ra p]) = true := by
          simp [hcase]
        rw [if_pos htrue]
        omega

/-- C1: after a successful recomputation of a match whose final result
is fully set, every Prediction on that match has exactly one Point row,
and that row holds exactly the classifier's output for that prediction
against the final score. The hypotheses mirror the schema: the match id
occurs once, and each user has at most one prediction per match. -/
theorem recalc_invariant_classifier_points (st : DBState) (mid : Int) (m : Match)
    (rh ra : Int) (n : Nat) (st' : DBState)
    (hm : st.matchRows.filter (fun x => x.id == mid) = [m])
    (hh : m.home_score = some rh) (ha : m.away_score = some ra)
    (hnd : ((st.preds.filter (fun p => p.match_id == mid)).map Prediction.tg_user_id).Nodup)
    (hrun : recalc_points_for_match_in_session st mid = Except.ok (n, st'))
    (p : Prediction) (hp : p ∈ st.preds) (hpm : p.match_id = mid) :
    pointsFor st'.points mid p.tg_user_id = [correctPoint mid rh ra p] := by
  unfold recalc_points_for_match_in_session at hrun
  rw [hm] at hrun
  simp only [scalar_one_or_none] at hrun
  rw [hh, ha] at hrun
  dsimp only at hrun
  cases hl : recalcLoop mid rh ra (st.preds.filter (fun q => q.match_id == mid))
      st.points 0 with
  | error e =>
    rw [hl] at hrun
    exact Except.noConfusion hrun
  | ok pr =>
    obtain ⟨pts, upd⟩ := pr
    rw [hl] at hrun
    simp only [Except.ok.injEq, Prod.mk.injEq] at hrun
    obtain ⟨hn, hst⟩ := hrun
    have hmem : p ∈ st.preds.filter (fun q => q.match_id == mid) :=
      List.mem_filter.mpr ⟨hp, by simp [hpm]⟩
    have hkey := recalcLoop_key mid rh ra _ st.points pts 0 upd hnd hl p hmem
    rw [← hst]
    exact hkey

/-- Witness for C1 on a concrete database: match 1 finished 2:1, user 7
predicted 2:1; after recomputation the single Point row for (1, 7) is
exactly the classifier's output. -/
theorem recalc_invariant_classifier_points_witness :
    pointsFor exStAfter.points 1 (Prediction.tg_user_id ⟨1, 7, 2, 1⟩) =
      [correctPoint 1 2 1 ⟨1, 7, 2, 1⟩] :=
  recalc_invariant_classifier_points exSt 1 ⟨1, some 2, some 1⟩ 2 1 1 exStAfter
    rfl rfl rfl (by decide) rfl ⟨1, 7, 2, 1⟩ (by decide) rfl

/-- C2: recomputation is idempotent — when a first call on `st` succeeds
and produces state `st₁`, a second call on `st₁` with no intervening
change succeeds, changes nothing, and reports 0 updates; in particular
the Point table after the second call is identical to the one after the
first. The Nodup hypothesis mirrors the unique (match_id, tg_user_id)
constraint on predictions. -/
theorem recalc_idempotent (st : DBState) (mid : Int) (n : Nat) (st₁ : DBState)
    (hnd : ((st.preds.filter (fun p => p.match_id == mid)).map Prediction.tg_user_id).Nodup)
    (h1 : recalc_points_for_match_in_session st mid = Except.ok (n, st₁)) :
    recalc_points_for_match_in_session st₁ mid = Except.ok (0, st₁) := by
  unfold recalc_points_for_match_in_session at h1 ⊢
  cases hm : scalar_one_or_none (st.matchRows.filter (fun x => x.id == mid)) with
  | error e =>
    rw [hm] at h1
    exact Except.noConfusion h1
  | ok mo =>
    rw [hm] at h1
    cases mo with
    | none =>
      simp only [Except.ok.injEq, Prod.mk.injEq] at h1
      obtain ⟨hn, hst⟩ := h1
      subst hst
      rw [hm]
    | some m =>
      dsimp only at h1
      cases hhs : m.home_score with
      | none =>
        rw [hhs] at h1
        cases has : m.away_score with
        | none =>
          rw [has] at h1
          dsimp only at h1
          simp only [Except.ok.injEq, Prod.mk.injEq] at h1
          obtain ⟨hn, hst⟩ := h1
          subst hst
          rw [hm]
          dsimp only
          rw [hhs, has]
        | some ra =>
          rw [has] at h1
          dsimp only at h1
          simp only [Except.ok.injEq, Prod.mk.injEq] at h1
          obtain ⟨hn, hst⟩ := h1
          subst hst
          rw [hm]
          dsimp only
          rw [hhs, has]
      | some rh =>
        rw [hhs] at h1
        cases has : m.away_score with
        | none =>
          rw [has] at h1
          dsimp only at h1
          simp only [Except.ok.injEq, Prod.mk.injEq] at h1
          obtain ⟨hn, hst⟩ := h1
          subst hst
          rw [hm]
          dsimp only
          rw [hhs, has]
        | some ra =>
          rw [has] at h1
          dsimp only at h1
          cases hl : recalcLoop mid rh ra (st.preds.filter (fun p => p.match_id == mid))
              st.points 0 with
          | error e =>
            rw [hl] at h1
            exact Except.noConfusion h1
          | ok pr =>
            obtain ⟨pts, upd⟩ := pr
            rw [hl] at h1
            simp only [Except.ok.injEq, Prod.mk.injEq] at h1
            obtain ⟨hn, hst⟩ := h1
            subst hst
            dsimp only
            rw [hm]
            dsimp only
            rw [hhs, has]
            dsimp only
            rw [recalcLoop_stable mid rh ra
              (st.preds.filter (fun p => p.match_id == mid)) pts 0
              (recalcLoop_key mid rh ra _ st.points pts 0 upd hnd hl)]

/-- Witness for C2: the second recomputation on the concrete state
reached from exSt returns 0 updates and the identical state. -/
theorem recalc_idempotent_witness :
    recalc_points_for_match_in_session exStAfter 1 = Except.ok (0, exStAfter) :=
  recalc_idempotent exSt 1 1 exStAfter (by decide) rfl

/-- Counterexample to C7: on exStale (one prediction whose Point row
already stores the correct value) the recomputation returns 0, while
the number of Prediction rows for the match is 1 — so the returned
integer is the number of rows written, not the number of predictions
processed. -/
theorem recalc_count_counterexample :
    recalc_points_for_match_in_session exStale 1 = Except.ok (0, exStale) ∧
      (exStale.preds.filter (fun p => p.match_id == 1)).length = 1 ∧ (0 : Nat) ≠ 1 :=
  ⟨rfl, rfl, Nat.zero_ne_one⟩

/-- C7 (amended): on a successful recomputation of a fully-scored
match, the returned integer is the number of Point rows created or
changed: it counts exactly those predictions for the match whose Point
row at call time is absent or differs from the classifier's output;
predictions whose row already stores the freshly computed value are not
counted. -/
theorem recalc_count_created_or_changed (st : DBState) (mid : Int) (m : Match)
    (rh ra : Int) (n : Nat) (st' : DBState)
    (hm : st.matchRows.filter (fun x => x.id == mid) = [m])
    (hh : m.home_score = some rh) (ha : m.away_score = some ra)
    (hnd : ((st.preds.filter (fun p => p.match_id == mid)).map Prediction.tg_user_id).Nodup)
    (hrun : recalc_points_for_match_in_session st mid = Except.ok (n, st')) :
    n = (st.preds.filter (fun p => p.match_id == mid)).countP
      (fun p => decide (pointsFor st.points mid p.tg_user_id ≠ [correctPoint mid rh ra p])) := by
  unfold recalc_points_for_match_in_session at hrun
  rw [hm] at hrun
  simp only [scalar_one_or_none] at hrun
  rw [hh, ha] at hrun
  dsimp only at hrun
  cases hl : recalcLoop mid rh ra (st.preds.filter (fun q => q.match_id == mid))
      st.points 0 with
  | error e =>
    rw [hl] at hrun
    exact Except.noConfusion hrun
  | ok pr =>
    obtain ⟨pts, upd⟩ := pr
    rw [hl] at hrun
    simp only [Except.ok.injEq, Prod.mk.injEq] at hrun
    have hc := recalcLoop_count mid rh ra _ st.points pts 0 upd hnd hl
    have hn := hrun.1
    omega

/-- Witness for C7 (amended) on exMix, which mixes all three outcomes:
user 7's row is already correct (not counted), user 8's row is stale
(changed, counted), user 9 has no row (created, counted) — the call
returns 2. -/
theorem recalc_count_created_or_changed_witness :
    (2 : Nat) = (exMix.preds.filter (fun p => p.match_id == 1)).countP
      (fun p => decide (pointsFor exMix.points 1 p.tg_user_id ≠ [correctPoint 1 2 1 p])) :=
  recalc_count_created_or_changed exMix 1 ⟨1, some 2, some 1⟩ 2 1 2 exMixAfter
    rfl rfl rfl (by decide) rfl

/-- Counterexample to C8: on the empty database, a recomputation for
the nonexistent match id 1 returns a successful zero-update result
instead of signalling a lookup failure. -/
theorem recalc_missing_match_counterexample :
    recalc_points_for_match_in_session emptySt 1 = Except.ok (0, emptySt) := rfl

/-- C8 (amended): when no Match row has the requested id, the
recomputation silently succeeds with 0 updates and leaves the state
unchanged; no failure is signalled. -/
theorem recalc_missing_match_returns_zero (st : DBState) (mid : Int)
    (hm : st.matchRows.filter (fun x => x.id == mid) = []) :
    recalc_points_for_match_in_session st mid = Except.ok (0, st) := by
  unfold recalc_points_for_match_in_session
  rw [hm]
  rfl

/-- Witness for C8 (amended) at the empty database and match id 1. -/
theorem recalc_missing_match_returns_zero_witness :
    recalc_points_for_match_in_session emptySt 1 = Except.ok (0, emptySt) :=
  recalc_missing_match_returns_zero emptySt 1 rfl

/-- C9: recomputation of an existing match whose final result is not
fully set (home or away score missing) returns 0 and leaves the whole
state unchanged. -/
theorem recalc_noop_unfinished (st : DBState) (mid : Int) (m : Match)
    (hm : st.matchRows.filter (fun x => x.id == mid) = [m])
    (hun : m.home_score = none ∨ m.away_score = none) :
    recalc_points_for_match_in_session st mid = Except.ok (0, st) := by
  unfold recalc_points_for_match_in_session
  rw [hm]
  dsimp only [scalar_one_or_none]
  rcases hun with h | h
  · rw [h]
  · rw [h]
    cases m.home_score <;> rfl

/-- Witness for C9 on a concrete state whose match 1 has no away score:
the recomputation returns 0 and the state, predictions ignored. -/
theorem recalc_noop_unfinished_witness :
    recalc_points_for_match_in_session exStUnfin 1 = Except.ok (0, exStUnfin) :=
  recalc_noop_unfinished exStUnfin 1 ⟨1, some 2, none⟩ rfl (Or.inr rfl)

/-- C10: a loop iteration for a prediction whose existing Point row
already stores exactly the freshly computed points and category leaves
the points table untouched and does not increment the update count. -/
theorem recalc_skips_correct_rows (mid rh ra : Int) (pts : List Point) (u : Nat)
    (p : Prediction) (q : Point)
    (hq : pointsFor pts mid p.tg_user_id = [q])
    (hpv : q.points = (calculate_points p.pred_home p.pred_away rh ra).points)
    (hcv : q.category = (calculate_points p.pred_home p.pred_away rh ra).category) :
    applyPred mid rh ra pts u p = Except.ok (pts, u) :=
  applyPred_stable mid rh ra pts u p q hq hpv hcv

/-- Witness for C10: with actual score 1:0, prediction 1:0 and an
existing (4, "exact") row, the iteration returns the table and counter
unchanged. -/
theorem recalc_skips_correct_rows_witness :
    applyPred 1 1 0 [⟨1, 7, 4, "exact"⟩] 5 ⟨1, 7, 1, 0⟩ =
      Except.ok ([⟨1, 7, 4, "exact"⟩], 5) :=
  recalc_skips_correct_rows 1 1 0 [⟨1, 7, 4, "exact"⟩] 5 ⟨1, 7, 1, 0⟩
    ⟨1, 7, 4, "exact"⟩ rfl rfl rfl

end RplBot
